import Mathlib

/-!
Shallow embedding of the eksisozluk thread scraper.

The repository has two generations of the scraper: a legacy single-file
script (eksisozluk_scraper.py at the repository root) and the refactored
package under src/ (eksisozluk_scraper.py, main.py, data_writer.py,
csvwriter.py).  The refactored package is the one whose scrape_thread
returns a value, whose scrape_page returns a per-page list and whose
main.py drives DataWriter, so the definitions below follow it; the legacy
script's entry-point dispatch is embedded separately where a claim cites it.

Python strings are modelled as lists of characters, dicts that are built
once and only iterated as association lists in insertion order, exceptions
as Except, and the concurrency of asyncio (gather, Semaphore) as explicit
completion orders and a step relation.
-/

deriving instance DecidableEq for Except

namespace EksiScraper

/-- Python strings, modelled as lists of characters. -/
abbrev Str := List Char

/-- Whitespace recognised by the model of Python str.strip (ASCII
whitespace; the scraped markup only contains these). -/
def isSpaceChar (c : Char) : Bool :=
  c = ' ' || c = '\t' || c = '\n' || c = '\r'

/-- Model of Python str.strip(): drop whitespace from both ends. -/
def pyStrip (s : Str) : Str :=
  ((s.dropWhile isSpaceChar).reverse.dropWhile isSpaceChar).reverse

/-- Model of Python str.split(sep) for a one-character separator: split on
every occurrence of sep; the result always has one more part than there
are occurrences of sep. -/
def splitSep (sep : Char) : Str → List Str
  | [] => [[]]
  | c :: cs =>
    if c = sep then [] :: splitSep sep cs
    else
      match splitSep sep cs with
      | [] => [[c]]
      | p :: ps => (c :: p) :: ps

/-- Accumulating decimal reader for pyInt: every remaining character must
be an ASCII digit. -/
def decDigitsAux : Str → Nat → Option Nat
  | [], acc => some acc
  | c :: cs, acc =>
    if c.isDigit then decDigitsAux cs (acc * 10 + (c.toNat - '0'.toNat))
    else none

/-- A nonempty all-digit string read as a natural number. -/
def decDigits (s : Str) : Option Nat :=
  if s = [] then none else decDigitsAux s 0

/-- Model of Python int(str) on ASCII input: strip whitespace, then an
optional sign followed by one or more decimal digits; anything else raises
ValueError, modelled as none. -/
def pyInt (s : Str) : Option Int :=
  match pyStrip s with
  | '+' :: rest => (decDigits rest).map Int.ofNat
  | '-' :: rest => (decDigits rest).map (fun n => -(n : Int))
  | t => (decDigits t).map Int.ofNat

/-- One entry node as the scraper queries it: entry.find(class_=...) for
the content, author and date sub-nodes may each return None, so each
sub-field is optional; a present field carries the node's text. -/
structure EntryNode where
  content : Option Str
  author : Option Str
  entryDate : Option Str
deriving DecidableEq

/-- A scraped record: a Python dict with string keys and string values,
modelled as its key-value pairs in insertion order. -/
abbrev Record := List (Str × Str)

/-- The literal placeholder _parse_entry stores when an entry carries no
last-edited timestamp. -/
def nullMarker : Str := "null".data

/-- The date-splitting logic of EksiSozlukScraper._parse_entry: when the
stripped date text contains a tilde, split on every tilde, strip each part
and unpack into exactly two values — Python raises ValueError when the
split yields more than two parts; without a tilde the whole text is the
creation date and the last-changed field is the literal placeholder. -/
def parseDateField (t : Str) : Except Unit (Str × Str) :=
  if '~' ∈ t then
    match (splitSep '~' t).map pyStrip with
    | [a, b] => .ok (a, b)
    | _ => .error ()
  else .ok (t, nullMarker)

/-- EksiSozlukScraper._parse_entry: read content, author and the date text
from the entry node in that order — a missing node means .text on None
raises AttributeError, modelled as .error — then split the date text and
build the four-key dict. -/
def parse_entry (e : EntryNode) : Except Unit Record :=
  match e.content with
  | none => .error ()
  | some contentRaw =>
    match e.author with
    | none => .error ()
    | some authorRaw =>
      match e.entryDate with
      | none => .error ()
      | some dateRaw =>
        match parseDateField (pyStrip dateRaw) with
        | .error u => .error u
        | .ok dates =>
          .ok [("Content".data, pyStrip contentRaw),
               ("Author".data, pyStrip authorRaw),
               ("Date Created".data, dates.1),
               ("Last Changed".data, dates.2)]

/-- A fetched page document as scrape_page queries it:
soup.find_all(id='entry-item') in source-markup order. -/
structure PageDoc where
  entries : List EntryNode
deriving DecidableEq

/-- Outcome of one transport attempt for a url: a parsed response document,
or an aiohttp.ClientError raised while fetching. -/
inductive Transport where
  | ok (doc : PageDoc)
  | clientError
deriving DecidableEq

/-- The list comprehension of scrape_page,
[await self._parse_entry(entry) for entry in entries]: parse the entry
nodes left to right; the first exception aborts the whole comprehension. -/
def parseEntries : List EntryNode → Except Unit (List Record)
  | [] => .ok []
  | e :: es =>
    match parse_entry e with
    | .error u => .error u
    | .ok r =>
      match parseEntries es with
      | .error u => .error u
      | .ok rs => .ok (r :: rs)

/-- One call of the body of EksiSozlukScraper.scrape_page, for a given
attempt number.  Inside the semaphore block a try/except Exception wraps
the fetch and the per-entry parsing, so a ClientError from session.get and
any parse error alike are logged and turned into an empty list; the .error
branch of the result — an exception escaping to the backoff decorator — is
never produced (lemma scrape_page_attempt_ok below). -/
def scrape_page_attempt (transport : Nat → Transport) (attempt : Nat) :
    Except Unit (List Record) :=
  match transport attempt with
  | .ok doc =>
    match parseEntries doc.entries with
    | .ok rs => .ok rs
    | .error _ => .ok []
  | .clientError => .ok []

/-- Model of the backoff.on_exception(backoff.expo, ClientError, max_tries,
max_time) decorator: call the wrapped coroutine; when it raises the
retryable exception and tries remain and the cumulative elapsed time stays
within maxTime, sleep 2 ^ (attempt - 1) seconds (backoff.expo with base 2,
factor 1) and call it again, else re-raise.  Returns the delays slept and
the final outcome. -/
def backoffRun (maxTime : Nat) (body : Nat → Except Unit α) :
    Nat → Nat → Nat → List Nat × Except Unit α
  | attempt, triesLeft, elapsed =>
    match body attempt with
    | .ok a => ([], .ok a)
    | .error e =>
      match triesLeft with
      | 0 => ([], .error e)
      | t + 1 =>
        let d := 2 ^ (attempt - 1)
        if maxTime < elapsed + d then ([], .error e)
        else
          let rest := backoffRun maxTime body (attempt + 1) t (elapsed + d)
          (d :: rest.1, rest.2)

/-- EksiSozlukScraper.scrape_page with its decorator applied:
max_tries = 8 calls in total (so 7 retries), max_time = 300 seconds,
starting at attempt 1 with no elapsed time. -/
def scrape_page (transport : Nat → Transport) :
    List Nat × Except Unit (List Record) :=
  backoffRun 300 (scrape_page_attempt transport) 1 7 0

/-- The pagination marker: soup.find('div', class_='pager') may find the
div, and the div may carry a 'data-pagecount' attribute whose value is a
string. -/
structure PagerDiv where
  pagecount : Option Str
deriving DecidableEq

/-- The thread's landing document as find_number_of_pages queries it. -/
structure ThreadDoc where
  pager : Option PagerDiv
deriving DecidableEq

/-- EksiSozlukScraper.find_number_of_pages: when the pager div exists and
has a data-pagecount attribute, return int(value) — the surrounding
try/except turns a ValueError raised by int() into the fallback 1; in
every other case return 1. -/
def find_number_of_pages (doc : ThreadDoc) : Int :=
  match doc.pager with
  | some pd =>
    match pd.pagecount with
    | some v =>
      match pyInt v with
      | some n => n
      | none => 1
    | none => 1
  | none => 1

/-- scrape_thread's thread_url: self.base_url + thread. -/
def thread_url (base thread : Str) : Str := base ++ thread

/-- Model of Python str(n) for a natural number. -/
def natStr (n : Nat) : Str := Nat.toDigits 10 n

/-- The url scrape_thread hands to the scrape_page task for a page:
thread_url + '?p=' + str(page). -/
def page_url (base thread : Str) (page : Nat) : Str :=
  thread_url base thread ++ "?p=".data ++ natStr page

/-- The page numbers scrape_thread schedules:
range(1, int(number_of_pages) + 1). -/
def pageNumbers (n : Nat) : List Nat := List.range' 1 n

/-- Every url scrape_thread fetches for a thread whose resolved page count
is n: first the page-count discovery fetch of thread_url itself (inside
find_number_of_pages), then the url of each scrape_page task in page
order. -/
def scrape_thread_urls (base thread : Str) (n : Nat) : List Str :=
  thread_url base thread :: (pageNumbers n).map (page_url base thread)

/-- The result store behind asyncio.gather: the page tasks finish in an
arbitrary completion order, and a page p that finishes deposits its own
return value R p in its own slot.  gather itself never reads completion
order — it reads the slots in task-argument order once all tasks are
done. -/
def gatherStore (R : Nat → List Record) (completionOrder : List Nat) :
    Nat → Option (List Record) :=
  completionOrder.foldl (fun st p q => if q = p then some (R p) else st q)
    (fun _ => none)

/-- EksiSozlukScraper.scrape_thread's reassembly: gather one task per page
1..n, read the finished slots in page order, and flatten
([entry for page in results for entry in page]). -/
def scrape_thread_gather (R : Nat → List Record) (n : Nat)
    (completionOrder : List Nat) : List Record :=
  ((pageNumbers n).map
    (fun p => (gatherStore R completionOrder p).getD [])).flatten

/-- The value a completed scrape_page task hands to asyncio.gather.  The
body of scrape_page catches every exception, so the task always returns
normally (lemma scrape_page_ok); an .error simply has no entries to
contribute. -/
def pageResult (transport : Nat → Transport) : List Record :=
  match (scrape_page transport).2 with
  | .ok rs => rs
  | .error _ => []

/-- scrape_thread end to end over the per-page transports: one scrape_page
task per page in 1..n, the returned page lists concatenated in page
order. -/
def scrape_thread (transports : Nat → Nat → Transport) (n : Nat) :
    List Record :=
  ((pageNumbers n).map (fun p => pageResult (transports p))).flatten

/-- State of one thread's page-fetch tasks around
asyncio.Semaphore(max_concurrent_requests): avail is the semaphore's
counter, waiting counts tasks that have not yet entered the
'async with semaphore' block, holding counts tasks inside it (their fetch
is in flight), finished counts tasks past it. -/
structure SemState where
  avail : Nat
  waiting : Nat
  holding : Nat
  finished : Nat
deriving DecidableEq

/-- scrape_thread's starting state: Semaphore(budget) fresh and all n page
tasks created but not yet inside the block. -/
def initSem (budget n : Nat) : SemState :=
  ⟨budget, n, 0, 0⟩

/-- Scheduler steps: a waiting task enters the semaphore block only when
the counter is positive, decrementing it (acquire); a holding task leaving
the block increments it back (release).  No other transition touches the
gate. -/
inductive SemStep : SemState → SemState → Prop
  | acquire (s : SemState) (ha : 0 < s.avail) (hw : 0 < s.waiting) :
      SemStep s ⟨s.avail - 1, s.waiting - 1, s.holding + 1, s.finished⟩
  | release (s : SemState) (hh : 0 < s.holding) :
      SemStep s ⟨s.avail + 1, s.waiting, s.holding - 1, s.finished + 1⟩

/-- The states a scrape of n pages under the given budget can reach. -/
inductive SemReachable (budget n : Nat) : SemState → Prop
  | init : SemReachable budget n (initSem budget n)
  | step {s t : SemState} : SemReachable budget n s → SemStep s t →
      SemReachable budget n t

/-- Outcome of an entry-point run: the status passed to sys.exit (none when
the script falls off the end normally) and the threads handed to the
network-scraping main(). -/
structure MainOutcome where
  exitCode : Option Nat
  scrapedThreads : List Str
deriving DecidableEq

/-- The thread list both entry points assemble: args.threads when truthy
else [], extended with the stripped lines of the threads file when one is
given. -/
def buildThreadList (argThreads : Option (List Str))
    (fileLines : Option (List Str)) : List Str :=
  (match argThreads with
   | some ts => if ts = [] then [] else ts
   | none => []) ++
  (match fileLines with
   | some ls => ls.map pyStrip
   | none => [])

/-- src/main.py's dispatch: when the thread list is nonempty run the
scrape; otherwise log an error, print the argparse help and sys.exit(1). -/
def main_entry (argThreads : Option (List Str))
    (fileLines : Option (List Str)) : MainOutcome :=
  let tl := buildThreadList argThreads fileLines
  if tl = [] then ⟨some 1, []⟩ else ⟨none, tl⟩

/-- The legacy root script's dispatch: when the thread list is nonempty
scrape it in chunks; when it is empty print a notice and sys.exit(0). -/
def legacy_entry (argThreads : Option (List Str))
    (fileLines : Option (List Str)) : MainOutcome :=
  let tl := buildThreadList argThreads fileLines
  if tl = [] then ⟨some 0, []⟩ else ⟨none, tl⟩

/-- A filesystem effect of the batch driver: writing one output file. -/
inductive FsAction where
  | writeFile (filename : Str) (rows : List Record) (fmt : Str)
deriving DecidableEq

/-- main.process_thread once scrape_thread has returned scraped: only when
scraped is truthy (nonempty) does it build the filename
thread.output_format and call DataWriter.write_data on it; otherwise it
logs a warning and touches no file. -/
def process_thread (scraped : List Record) (thread fmt : Str) :
    List FsAction :=
  if scraped = [] then []
  else [FsAction.writeFile (thread ++ '.' :: fmt) scraped fmt]

/-- The dict keys every parsed entry carries, in insertion order — also the
header row DataWriter._write_csv derives from data[0].keys(). -/
def fieldnames : List Str :=
  ["Content".data, "Author".data, "Date Created".data, "Last Changed".data]

/-- The keys of a record, in insertion order. -/
def recordKeys (r : Record) : List Str := r.map Prod.fst

/-! ### Concrete fixtures used by witnesses and counterexamples -/

/-- A well-formed entry node. -/
def goodNode : EntryNode :=
  ⟨some "hi".data, some "au".data, some "05.01.2020 10:00".data⟩

/-- An entry node whose author sub-node is missing
(entry.find(class_='entry-author') returned None). -/
def badNode : EntryNode :=
  ⟨some "hi2".data, none, some "05.01.2020 10:00".data⟩

/-- The record goodNode parses to. -/
def goodRec : Record :=
  [("Content".data, "hi".data), ("Author".data, "au".data),
   ("Date Created".data, "05.01.2020 10:00".data),
   ("Last Changed".data, nullMarker)]

/-- A page holding just the well-formed entry. -/
def onePage : PageDoc := ⟨[goodNode]⟩

/-- A page holding the well-formed entry followed by the malformed one. -/
def mixedPage : PageDoc := ⟨[goodNode, badNode]⟩

/-- A transport that raises aiohttp.ClientError on attempts 1 and 2 and
serves the one-entry page from attempt 3 on. -/
def flakyTransport : Nat → Transport :=
  fun attempt => if attempt ≤ 2 then .clientError else .ok onePage

/-! ### Helper lemmas -/

/-- The body of scrape_page ends in except Exception, so it always returns
normally: no exception ever reaches the backoff decorator. -/
theorem scrape_page_attempt_ok (transport : Nat → Transport) (attempt : Nat) :
    ∃ rs, scrape_page_attempt transport attempt = .ok rs := by
  cases h : transport attempt with
  | ok doc =>
    cases h2 : parseEntries doc.entries with
    | ok rs => exact ⟨rs, by simp [scrape_page_attempt, h, h2]⟩
    | error u => exact ⟨[], by simp [scrape_page_attempt, h, h2]⟩
  | clientError => exact ⟨[], by simp [scrape_page_attempt, h]⟩

/-- Because the body never raises, the decorator makes exactly one call:
no delay is ever slept and the result is the first call's result. -/
theorem scrape_page_eq (transport : Nat → Transport) :
    scrape_page transport = ([], scrape_page_attempt transport 1) := by
  obtain ⟨rs, h⟩ := scrape_page_attempt_ok transport 1
  simp [scrape_page, backoffRun, h]

/-- The page comprehension raises as soon as any entry fails to parse. -/
theorem parseEntries_error (l : List EntryNode)
    (h : ∃ e ∈ l, parse_entry e = .error ()) :
    parseEntries l = .error () := by
  induction l with
  | nil => simp at h
  | cons a l ih =>
    obtain ⟨e, he, hpe⟩ := h
    rcases List.mem_cons.mp he with rfl | hmem
    · simp [parseEntries, hpe]
    · cases hpa : parse_entry a with
      | error u => cases u; simp [parseEntries, hpa]
      | ok r => simp [parseEntries, hpa, ih ⟨e, hmem, hpe⟩]

/-- A record inside a successful page comprehension comes from parse_entry
on one of the page's entry nodes. -/
theorem parseEntries_ok_mem {l : List EntryNode} {rs : List Record}
    (h : parseEntries l = .ok rs) {r : Record} (hr : r ∈ rs) :
    ∃ e ∈ l, parse_entry e = .ok r := by
  induction l generalizing rs with
  | nil =>
    simp [parseEntries] at h
    subst h
    simp at hr
  | cons a l ih =>
    cases hpa : parse_entry a with
    | error u => simp [parseEntries, hpa] at h
    | ok r0 =>
      cases hpl : parseEntries l with
      | error u => simp [parseEntries, hpa, hpl] at h
      | ok rs0 =>
        simp [parseEntries, hpa, hpl] at h
        subst h
        rcases List.mem_cons.mp hr with rfl | hmem
        · exact ⟨a, List.mem_cons_self a l, hpa⟩
        · obtain ⟨e, he, hpe⟩ := ih hpl hmem
          exact ⟨e, List.mem_cons_of_mem a he, hpe⟩

/-- parse_entry only ever builds the four-key dict. -/
theorem parse_entry_keys {e : EntryNode} {r : Record}
    (h : parse_entry e = .ok r) : recordKeys r = fieldnames := by
  obtain ⟨c, a, d⟩ := e
  cases c with
  | none => simp [parse_entry] at h
  | some cr =>
    cases a with
    | none => simp [parse_entry] at h
    | some ar =>
      cases d with
      | none => simp [parse_entry] at h
      | some dr =>
        cases hdf : parseDateField (pyStrip dr) with
        | error u => simp [parse_entry, hdf] at h
        | ok dates =>
          simp [parse_entry, hdf] at h
          subst h
          rfl

/-- A record returned by a successful scrape_page comes from parse_entry. -/
theorem scrape_page_records {transport : Nat → Transport} {rs : List Record}
    (hok : (scrape_page transport).2 = .ok rs) {r : Record} (hr : r ∈ rs) :
    ∃ e, parse_entry e = .ok r := by
  rw [scrape_page_eq] at hok
  cases htr : transport 1 with
  | ok doc =>
    cases hpe : parseEntries doc.entries with
    | ok rs0 =>
      have hrs : rs0 = rs := by
        have h2 := hok
        simp [scrape_page_attempt, htr, hpe] at h2
        exact h2
      subst hrs
      obtain ⟨e, _, hpe2⟩ := parseEntries_ok_mem hpe hr
      exact ⟨e, hpe2⟩
    | error u =>
      have hrs : rs = [] := by
        have h2 := hok
        simp [scrape_page_attempt, htr, hpe] at h2
        exact h2
      subst hrs
      simp at hr
  | clientError =>
    have hrs : rs = [] := by
      have h2 := hok
      simp [scrape_page_attempt, htr] at h2
      exact h2
    subst hrs
    simp at hr

/-- Splitting a string that does not contain the separator yields the one
whole part. -/
theorem splitSep_of_not_mem {sep : Char} {t : Str} (h : sep ∉ t) :
    splitSep sep t = [t] := by
  induction t with
  | nil => rfl
  | cons c cs ih =>
    have hc : ¬ c = sep := fun hec => absurd (by simp [hec]) h
    have hcs : sep ∉ cs := fun hm => h (List.mem_cons_of_mem c hm)
    simp [splitSep, hc, ih hcs]

/-- The first separator occurrence cuts off the separator-free piece a. -/
theorem splitSep_append {sep : Char} (r : Str) :
    ∀ a : Str, sep ∉ a →
      splitSep sep (a ++ sep :: r) = a :: splitSep sep r := by
  intro a
  induction a with
  | nil => intro _; simp [splitSep]
  | cons c cs ih =>
    intro h
    have hc : ¬ c = sep := fun hec => absurd (by simp [hec]) h
    have hcs : sep ∉ cs := fun hm => h (List.mem_cons_of_mem c hm)
    simp [splitSep, hc, ih hcs]

/-- A split always has at least one part. -/
theorem splitSep_ne_nil (sep : Char) (t : Str) : splitSep sep t ≠ [] := by
  cases t with
  | nil => simp [splitSep]
  | cons c cs =>
    by_cases hc : c = sep
    · simp [splitSep, hc]
    · simp only [splitSep, hc, if_false]
      cases splitSep sep cs <;> simp

/-- Once a page has deposited its result in the gather store, its slot
holds exactly that page's own result: depositing other pages' results
earlier or later never disturbs it. -/
theorem gatherStore_aux (R : Nat → List Record) (order : List Nat) :
    ∀ (init : Nat → Option (List Record)) (p : Nat),
      p ∈ order ∨ init p = some (R p) →
      List.foldl (fun st p q => if q = p then some (R p) else st q)
        init order p = some (R p) := by
  induction order with
  | nil =>
    intro init p h
    rcases h with h | h
    · simp at h
    · simpa using h
  | cons a rest ih =>
    intro init p h
    rw [List.foldl_cons]
    apply ih
    by_cases hpr : p ∈ rest
    · exact Or.inl hpr
    · right
      by_cases hpa : p = a
      · subst hpa; simp
      · rcases h with h | h
        · rcases List.mem_cons.mp h with h2 | h2
          · exact absurd h2 hpa
          · exact absurd h2 hpr
        · simpa [hpa] using h

/-- The slot of any page appearing in the completion order holds that
page's own result. -/
theorem gatherStore_lookup (R : Nat → List Record) (order : List Nat)
    (p : Nat) (h : p ∈ order) : gatherStore R order p = some (R p) := by
  simpa [gatherStore] using
    gatherStore_aux R order (fun _ => none) p (Or.inl h)

/-- The gate invariant: held permits plus free permits always amount to
the semaphore's initial budget. -/
theorem sem_invariant (budget n : Nat) (s : SemState)
    (h : SemReachable budget n s) : s.avail + s.holding = budget := by
  induction h with
  | init => simp [initSem]
  | step hr hstep ih =>
    cases hstep with
    | acquire ha hw => dsimp only; omega
    | release hh => dsimp only; omega

/-! ### Claim theorems -/

/-- C1: for a thread scrape over pages 1..n where page p yields entry list
R p, the list scrape_thread returns is R 1 ++ R 2 ++ ... ++ R n,
concatenated in strictly ascending page order, for every completion order
of the concurrent page tasks that completes every page. -/
theorem scrape_thread_page_order (R : Nat → List Record) (n : Nat)
    (order : List Nat) (hall : ∀ p ∈ pageNumbers n, p ∈ order) :
    scrape_thread_gather R n order = ((pageNumbers n).map R).flatten := by
  unfold scrape_thread_gather
  congr 1
  apply List.map_congr_left
  intro p hp
  rw [gatherStore_lookup R order p (hall p hp)]
  rfl

/-- Witness for C1 at n = 2 with the pages completing in reverse order. -/
theorem scrape_thread_page_order_witness :
    (∀ p ∈ pageNumbers 2, p ∈ [2, 1]) ∧
    scrape_thread_gather (fun p => [[("p".data, natStr p)]]) 2 [2, 1] =
      ((pageNumbers 2).map (fun p => [[("p".data, natStr p)]])).flatten :=
  ⟨by decide,
   scrape_thread_page_order (fun p => [[("p".data, natStr p)]]) 2 [2, 1]
     (by decide)⟩

/-- C2 (code bug): scrape_page never retries a transport failure.  The
try/except Exception inside the body swallows aiohttp.ClientError before
the backoff decorator — declared with max_tries = 8 precisely for
ClientError — can see it.  With a transport that fails on attempts 1 and 2
and would succeed on attempt 3, scrape_page sleeps no backoff delay,
makes one call and returns an empty page, instead of the all-success
result the decorator's own retry policy promises. -/
theorem scrape_page_never_retries :
    scrape_page flakyTransport = ([], .ok []) ∧
    scrape_page (fun _ => .ok onePage) = ([], .ok [goodRec]) ∧
    ([] : List Record) ≠ [goodRec] := by
  refine ⟨?_, ?_, by decide⟩ <;> decide

/-- C3 counterexample: a page with a well-formed entry followed by an
entry whose author node is missing.  The claim says only the malformed
entry is skipped, so the page should still yield the well-formed record;
the code catches the AttributeError at page level and returns the empty
page instead. -/
theorem single_bad_entry_counterexample :
    scrape_page (fun _ => .ok mixedPage) = ([], .ok []) ∧
    parse_entry goodNode = .ok goodRec ∧
    parse_entry badNode = .error () ∧
    (Except.ok ([] : List Record) : Except Unit (List Record)) ≠
      .ok [goodRec] := by
  refine ⟨?_, ?_, ?_, by decide⟩ <;> decide

/-- C3 amended: an entry with a missing required sub-field aborts the
whole page comprehension — scrape_page catches the exception at page
level and returns an empty PageResult, dropping every well-formed entry
of that page along with the malformed one. -/
theorem single_bad_entry_empties_page (transport : Nat → Transport)
    (doc : PageDoc) (h1 : transport 1 = .ok doc)
    (h2 : ∃ e ∈ doc.entries, parse_entry e = .error ()) :
    scrape_page transport = ([], .ok []) := by
  have hbody : scrape_page_attempt transport 1 = .ok [] := by
    simp [scrape_page_attempt, h1, parseEntries_error doc.entries h2]
  simp [scrape_page, backoffRun, hbody]

/-- Witness for the amended C3 on the concrete mixed page. -/
theorem single_bad_entry_empties_page_witness :
    ((fun _ : Nat => Transport.ok mixedPage) 1 = .ok mixedPage) ∧
    (∃ e ∈ mixedPage.entries, parse_entry e = .error ()) ∧
    scrape_page (fun _ => .ok mixedPage) = ([], .ok []) :=
  ⟨rfl, by decide,
   single_bad_entry_empties_page (fun _ => .ok mixedPage) mixedPage rfl
     (by decide)⟩

/-- C4 counterexample: a date text with two tildes.  The claim says the
parser splits at the first tilde and keeps the remaining tildes inside the
last-edited half; the code splits at every tilde and the unpacking of
three parts into two variables raises ValueError, so the entry parse
fails. -/
theorem date_two_tildes_counterexample :
    parseDateField
      "05.01.2020 10:00 ~ 06.01.2020 11:00 ~ 07.01.2020 12:00".data =
      .error () ∧
    (Except.error () : Except Unit (Str × Str)) ≠
      .ok ("05.01.2020 10:00".data,
           "06.01.2020 11:00 ~ 07.01.2020 12:00".data) := by
  refine ⟨?_, by decide⟩
  decide

/-- C4 amended: with exactly one tilde the date text is split there and
both halves are whitespace-trimmed; without a tilde the whole text is the
creation timestamp and the last-edited field is the literal placeholder;
with two or more tildes the entry parse fails (ValueError on unpacking)
instead of splitting at the first occurrence. -/
theorem date_field_amended (a b t : Str)
    (ha : '~' ∉ a) (hb : '~' ∉ b) (ht : '~' ∉ t) :
    parseDateField (a ++ '~' :: b) = .ok (pyStrip a, pyStrip b) ∧
    parseDateField t = .ok (t, nullMarker) ∧
    (∀ c d e : Str, '~' ∉ c → '~' ∉ d →
      parseDateField (c ++ ('~' :: (d ++ ('~' :: e)))) = .error ()) := by
  refine ⟨?_, ?_, ?_⟩
  · have hmem : '~' ∈ a ++ '~' :: b :=
      List.mem_append_right a (List.mem_cons_self _ _)
    simp [parseDateField, hmem, splitSep_append b a ha,
      splitSep_of_not_mem hb]
  · simp [parseDateField, ht]
  · intro c d e hc hd
    have h2 : splitSep '~' (d ++ ('~' :: e)) = d :: splitSep '~' e :=
      splitSep_append e d hd
    have h1 : splitSep '~' (c ++ ('~' :: (d ++ ('~' :: e)))) =
        c :: (d :: splitSep '~' e) := by
      rw [splitSep_append (d ++ ('~' :: e)) c hc, h2]
    obtain ⟨x, xs, hxe⟩ : ∃ x xs, splitSep '~' e = x :: xs := by
      cases hse : splitSep '~' e with
      | nil => exact absurd hse (splitSep_ne_nil _ _)
      | cons x xs => exact ⟨x, xs, rfl⟩
    have hmem : '~' ∈ c ++ ('~' :: (d ++ ('~' :: e))) :=
      List.mem_append_right c (List.mem_cons_self _ _)
    simp [parseDateField, hmem, h1, hxe]

/-- Witness for the amended C4 on the spec's own grammar examples plus a
two-tilde input. -/
theorem date_field_amended_witness :
    ('~' ∉ "05.01.2020 10:00 ".data ∧ '~' ∉ " 06.01.2020 11:00".data ∧
      '~' ∉ "05.01.2020 10:00".data) ∧
    (parseDateField ("05.01.2020 10:00 ".data ++ '~' :: " 06.01.2020 11:00".data) =
        .ok (pyStrip "05.01.2020 10:00 ".data, pyStrip " 06.01.2020 11:00".data) ∧
      parseDateField "05.01.2020 10:00".data =
        .ok ("05.01.2020 10:00".data, nullMarker) ∧
      (∀ c d e : Str, '~' ∉ c → '~' ∉ d →
        parseDateField (c ++ ('~' :: (d ++ ('~' :: e)))) = .error ())) :=
  ⟨⟨by decide, by decide, by decide⟩,
   date_field_amended "05.01.2020 10:00 ".data " 06.01.2020 11:00".data
     "05.01.2020 10:00".data (by decide) (by decide) (by decide)⟩

/-- C5 counterexample: a pager div declaring data-pagecount="0".  int("0")
succeeds, so find_number_of_pages returns 0, not an integer ≥ 1. -/
theorem page_count_zero_counterexample :
    find_number_of_pages ⟨some ⟨some "0".data⟩⟩ = 0 ∧
    ¬ 1 ≤ find_number_of_pages ⟨some ⟨some "0".data⟩⟩ := by
  refine ⟨?_, by decide⟩
  decide

/-- C5 amended: find_number_of_pages returns an integer ≥ 1 whenever the
pagination marker is absent or the attribute is missing or non-numeric
(all fall back to 1); but when the attribute parses as an integer that
value is returned unchecked, so a declared count of 0 or a negative
number is returned as-is, below 1. -/
theorem page_count_amended (doc : ThreadDoc) :
    1 ≤ find_number_of_pages doc ∨
    ∃ pd v n, doc.pager = some pd ∧ pd.pagecount = some v ∧
      pyInt v = some n ∧ n ≤ 0 ∧ find_number_of_pages doc = n := by
  obtain ⟨pager⟩ := doc
  cases pager with
  | none => left; simp [find_number_of_pages]
  | some pd =>
    obtain ⟨pc⟩ := pd
    cases pc with
    | none => left; simp [find_number_of_pages]
    | some v =>
      cases hp : pyInt v with
      | none => left; simp [find_number_of_pages, hp]
      | some m =>
        by_cases hm : 1 ≤ m
        · left; simpa [find_number_of_pages, hp] using hm
        · right
          exact ⟨⟨some v⟩, v, m, rfl, rfl, hp, by omega,
            by simp [find_number_of_pages, hp]⟩

/-- C6: during a scrape whose page count exceeds the per-thread budget, in
every reachable scheduler state the number of fetches inside the
semaphore block stays within the budget. -/
theorem concurrency_bound (budget n : Nat) (s : SemState)
    (_hn : budget < n) (hr : SemReachable budget n s) :
    s.holding ≤ budget := by
  have h := sem_invariant budget n s hr
  omega

/-- Witness for C6: budget 1, two pages, after one task acquired the
gate. -/
theorem concurrency_bound_witness :
    1 < 2 ∧ SemState.holding ⟨0, 1, 1, 0⟩ ≤ 1 :=
  ⟨by decide,
   concurrency_bound 1 2 ⟨0, 1, 1, 0⟩ (by decide)
     (SemReachable.step SemReachable.init
       (SemStep.acquire (initSem 1 2) (by decide) (by decide)))⟩

/-- C7 counterexample: with base "b", thread "t" and two pages, the fetch
list is [bt, bt?p=1, bt?p=2] — the first page's content comes from
bt?p=1, not from the bare thread url the claim names for it. -/
theorem first_page_url_counterexample :
    scrape_thread_urls "b".data "t".data 2 =
      ["bt".data, "bt?p=1".data, "bt?p=2".data] ∧
    page_url "b".data "t".data 1 ≠ thread_url "b".data "t".data := by
  refine ⟨?_, by decide⟩
  decide

/-- C7 amended: page-count discovery fetches base_url + thread, and every
page k with 1 ≤ k ≤ n — the first page included — fetches its content
from base_url + thread + "?p=" + k; no other address is fetched. -/
theorem thread_urls_amended (base thread : Str) (n k : Nat)
    (h1 : 1 ≤ k) (h2 : k ≤ n) :
    (scrape_thread_urls base thread n).head? =
      some (base ++ thread) ∧
    (scrape_thread_urls base thread n)[k]? =
      some (base ++ thread ++ "?p=".data ++ natStr k) := by
  constructor
  · rfl
  · obtain ⟨j, rfl⟩ : ∃ j, k = j + 1 := ⟨k - 1, by omega⟩
    have hj : j < (List.range' 1 n).length := by
      simpa using (by omega : j < n)
    simp only [scrape_thread_urls, List.getElem?_cons_succ,
      List.getElem?_map, pageNumbers]
    rw [List.getElem?_eq_getElem hj]
    simp only [List.getElem_range', Option.map_some]
    have hv : 1 + 1 * j = j + 1 := by omega
    rw [hv]
    rfl

/-- Witness for the amended C7 at base "b", thread "t", n = 2, k = 1. -/
theorem thread_urls_amended_witness :
    (1 ≤ 1 ∧ 1 ≤ 2) ∧
    ((scrape_thread_urls "b".data "t".data 2).head? =
        some ("b".data ++ "t".data) ∧
      (scrape_thread_urls "b".data "t".data 2)[1]? =
        some ("b".data ++ "t".data ++ "?p=".data ++ natStr 1)) :=
  ⟨⟨by decide, by decide⟩,
   thread_urls_amended "b".data "t".data 2 1 (by decide) (by decide)⟩

/-- C8 counterexample: invoked with no thread flags and no file, the
package entry point (src/main.py) exits with status 1 — an error — not
the success status 0 the claim states. -/
theorem no_threads_exit_counterexample :
    main_entry none none = ⟨some 1, []⟩ ∧
    (MainOutcome.mk (some 1) []) ≠ ⟨some 0, []⟩ := by
  refine ⟨?_, by decide⟩
  decide

/-- C8 amended: with no thread identifiers both entry points perform no
network activity, but the package entry point exits with the error status
1 (after printing help); only the legacy root script exits with the
success status 0. -/
theorem no_threads_dispatch (argThreads : Option (List Str))
    (fileLines : Option (List Str))
    (h : buildThreadList argThreads fileLines = []) :
    main_entry argThreads fileLines = ⟨some 1, []⟩ ∧
    legacy_entry argThreads fileLines = ⟨some 0, []⟩ := by
  constructor <;> simp [main_entry, legacy_entry, h]

/-- Witness for the amended C8 with neither flag nor file given. -/
theorem no_threads_dispatch_witness :
    buildThreadList none none = [] ∧
    (main_entry none none = ⟨some 1, []⟩ ∧
      legacy_entry none none = ⟨some 0, []⟩) :=
  ⟨by decide, no_threads_dispatch none none (by decide)⟩

/-- C9: every record _parse_entry produces — and hence every element of
every list scrape_page and scrape_thread return — is a dict with exactly
the keys Content, Author, Date Created, Last Changed in that order, each
bound to a string (Record's value type), the invariant the CSV writer
relies on when deriving its header from data[0].keys(). -/
theorem record_keys_invariant :
    (∀ (e : EntryNode) (r : Record),
      parse_entry e = .ok r → recordKeys r = fieldnames) ∧
    (∀ (transport : Nat → Transport) (rs : List Record),
      (scrape_page transport).2 = .ok rs →
        ∀ r ∈ rs, recordKeys r = fieldnames) ∧
    (∀ (transports : Nat → Nat → Transport) (n : Nat),
      ∀ r ∈ scrape_thread transports n, recordKeys r = fieldnames) := by
  have hpage : ∀ (transport : Nat → Transport) (rs : List Record),
      (scrape_page transport).2 = .ok rs →
        ∀ r ∈ rs, recordKeys r = fieldnames := by
    intro tp rs hok r hr
    obtain ⟨e, he⟩ := scrape_page_records hok hr
    exact parse_entry_keys he
  refine ⟨fun e r h => parse_entry_keys h, hpage, ?_⟩
  intro tps n r hr
  simp only [scrape_thread] at hr
  obtain ⟨l, hl, hrl⟩ := List.mem_flatten.mp hr
  obtain ⟨p, hp, rfl⟩ := List.mem_map.mp hl
  obtain ⟨rs, hok⟩ := scrape_page_attempt_ok (tps p) 1
  have h2 : (scrape_page (tps p)).2 = .ok rs := by
    rw [scrape_page_eq]; exact hok
  have hpr : pageResult (tps p) = rs := by simp [pageResult, h2]
  rw [hpr] at hrl
  exact hpage (tps p) rs h2 r hrl

/-- Witness for C9 on a one-page, one-entry scrape. -/
theorem record_keys_invariant_witness :
    goodRec ∈ scrape_thread (fun _ _ => .ok onePage) 1 ∧
    recordKeys goodRec = fieldnames :=
  ⟨by decide,
   record_keys_invariant.2.2 (fun _ _ => .ok onePage) 1 goodRec (by decide)⟩

/-- C10: when a thread's scrape yields no entries, process_thread performs
no filesystem action at all — no file is created; and when it does write,
the single file written is named thread.format and holds the scraped
rows. -/
theorem empty_scrape_writes_nothing (scraped : List Record)
    (thread fmt : Str) :
    (scraped = [] → process_thread scraped thread fmt = []) ∧
    (process_thread scraped thread fmt ≠ [] →
      scraped ≠ [] ∧
      process_thread scraped thread fmt =
        [FsAction.writeFile (thread ++ '.' :: fmt) scraped fmt]) := by
  constructor
  · intro h; simp [process_thread, h]
  · intro h
    by_cases hs : scraped = []
    · exact absurd (by simp [process_thread, hs]) h
    · exact ⟨hs, by simp [process_thread, hs]⟩

/-- Witness for C10 with an empty and a one-record scrape. -/
theorem empty_scrape_writes_nothing_witness :
    process_thread [] "t".data "csv".data = [] ∧
    process_thread [goodRec] "t".data "csv".data ≠ [] ∧
    [goodRec] ≠ ([] : List Record) ∧
    process_thread [goodRec] "t".data "csv".data =
      [FsAction.writeFile ("t".data ++ '.' :: "csv".data) [goodRec]
        "csv".data] :=
  ⟨(empty_scrape_writes_nothing [] "t".data "csv".data).1 rfl,
   by decide,
   ((empty_scrape_writes_nothing [goodRec] "t".data "csv".data).2
     (by decide)).1,
   ((empty_scrape_writes_nothing [goodRec] "t".data "csv".data).2
     (by decide)).2⟩

end EksiScraper
